import Mathlib

/-!
# Verification of the KaspaMetrics technical-indicator pipeline

Shallow embedding of the indicator computations and auth utilities of the
KaspaMetrics dashboard.  Price series are modelled as `List ℚ` (pandas
float64 arithmetic is treated as exact arithmetic); a rolling computation
produces a `List (Option ℚ)` aligned index-for-index with its input, with
`none` standing for pandas `NaN` in the warm-up prefix.

The inline pandas calls of `src/pages/1_📈_Price_Charts.py`
(`rolling(window).mean()`, `rolling(window).std()`, Bollinger band
arithmetic) and the functions of `src/utils/auth.py` are embedded from the
source.  The indicator engine itself (`utils/data.py`: `get_technical_indicators`,
`get_market_stats`) is imported by the pages but its source file is not part
of the snapshot; those operations are modelled from the specification and
are marked `Modelled from the spec:` in their doc comments.
-/

/-- Minimum of a list of rationals (0 for the empty list, which is never used
on an empty window). -/
def listMin : List ℚ → ℚ
  | [] => 0
  | a :: as => as.foldl min a

/-- Maximum of a list of rationals (0 for the empty list). -/
def listMax : List ℚ → ℚ
  | [] => 0
  | a :: as => as.foldl max a

/-- Arithmetic mean of a list of rationals (`sum / len`; 0 on the empty
list by `div_zero`). -/
def listMean (l : List ℚ) : ℚ := l.sum / l.length

/-- The trailing window of `w` samples ending at index `i` (inclusive). -/
def trailingWin (s : List ℚ) (w i : ℕ) : List ℚ :=
  (s.take (i + 1)).drop (i + 1 - w)

/-- A pandas-style rolling computation with window `w` and
`min_periods = w` (the pandas default): entry `i` is `f` applied to the
trailing `w`-sample window when `w ≤ i+1`, and `NaN` (`none`) otherwise. -/
def rollingApply (f : List ℚ → ℚ) (w : ℕ) (s : List ℚ) : List (Option ℚ) :=
  (List.range s.length).map fun i =>
    if w ≤ i + 1 then some (f (trailingWin s w i)) else none

/-- Embeds `df['price'].rolling(window=w).mean()` as used for the SMA
overlays in `create_professional_chart`
(src/pages/1_📈_Price_Charts.py, lines 284-303). -/
def rollingMean (s : List ℚ) (w : ℕ) : List (Option ℚ) := rollingApply listMean w s

/-- The `SMA 20` overlay: `df['price'].rolling(window=20).mean()`
(src/pages/1_📈_Price_Charts.py, line 286). -/
def sma_20 (price : List ℚ) : List (Option ℚ) := rollingMean price 20

/-- The `SMA 50` overlay: `df['price'].rolling(window=50).mean()`
(src/pages/1_📈_Price_Charts.py, line 296). -/
def sma_50 (price : List ℚ) : List (Option ℚ) := rollingMean price 50

theorem foldl_min_le (as : List ℚ) : ∀ a : ℚ,
    as.foldl min a ≤ a ∧ ∀ x ∈ as, as.foldl min a ≤ x := by
  induction as with
  | nil => intro a; exact ⟨le_refl a, by simp⟩
  | cons b bs ih =>
    intro a
    simp only [List.foldl_cons]
    refine ⟨(ih (min a b)).1.trans (min_le_left a b), ?_⟩
    intro x hx
    rcases List.mem_cons.mp hx with h | h
    · exact h ▸ (ih (min a b)).1.trans (min_le_right a b)
    · exact (ih (min a b)).2 x h

theorem le_foldl_max (as : List ℚ) : ∀ a : ℚ,
    a ≤ as.foldl max a ∧ ∀ x ∈ as, x ≤ as.foldl max a := by
  induction as with
  | nil => intro a; exact ⟨le_refl a, by simp⟩
  | cons b bs ih =>
    intro a
    simp only [List.foldl_cons]
    refine ⟨(le_max_left a b).trans (ih (max a b)).1, ?_⟩
    intro x hx
    rcases List.mem_cons.mp hx with h | h
    · exact h ▸ (le_max_right a b).trans (ih (max a b)).1
    · exact (ih (max a b)).2 x h

theorem listMin_le_of_mem {l : List ℚ} {x : ℚ} (hx : x ∈ l) : listMin l ≤ x := by
  cases l with
  | nil => simp at hx
  | cons a as =>
    rcases List.mem_cons.mp hx with h | h
    · exact h ▸ (foldl_min_le as a).1
    · exact (foldl_min_le as a).2 x h

theorem le_listMax_of_mem {l : List ℚ} {x : ℚ} (hx : x ∈ l) : x ≤ listMax l := by
  cases l with
  | nil => simp at hx
  | cons a as =>
    rcases List.mem_cons.mp hx with h | h
    · exact h ▸ (le_foldl_max as a).1
    · exact (le_foldl_max as a).2 x h

/-- The mean of a non-empty list lies between any lower bound and any upper
bound of its elements. -/
theorem listMean_bounds (l : List ℚ) (hne : l ≠ []) (a b : ℚ)
    (ha : ∀ x ∈ l, a ≤ x) (hb : ∀ x ∈ l, x ≤ b) :
    a ≤ listMean l ∧ listMean l ≤ b := by
  have hlen : 0 < l.length := List.length_pos.mpr hne
  have hlQ : (0 : ℚ) < (l.length : ℚ) := by exact_mod_cast hlen
  constructor
  · rw [listMean, le_div_iff₀ hlQ]
    have := List.card_nsmul_le_sum l a ha
    rw [nsmul_eq_mul] at this
    linarith [this]
  · rw [listMean, div_le_iff₀ hlQ]
    have := List.sum_le_card_nsmul l b hb
    rw [nsmul_eq_mul] at this
    linarith [this]

theorem rollingApply_length (f : List ℚ → ℚ) (w : ℕ) (s : List ℚ) :
    (rollingApply f w s).length = s.length := by
  simp [rollingApply]

theorem rollingApply_get? (f : List ℚ → ℚ) (w : ℕ) (s : List ℚ) (i : ℕ)
    (hi : i < s.length) :
    (rollingApply f w s).get? i =
      some (if w ≤ i + 1 then some (f (trailingWin s w i)) else none) := by
  simp [rollingApply, List.get?_eq_getElem?, List.getElem?_map,
    List.getElem?_range hi]

theorem trailingWin_length (s : List ℚ) (w i : ℕ) (h1 : w ≤ i + 1)
    (h2 : i < s.length) : (trailingWin s w i).length = w := by
  simp only [trailingWin, List.length_drop, List.length_take]
  omega

theorem trailingWin_mem {s : List ℚ} {w i : ℕ} {x : ℚ}
    (hx : x ∈ trailingWin s w i) : x ∈ s :=
  List.mem_of_mem_take (List.mem_of_mem_drop hx)

/-- C1: for every non-empty price series of length `L` and window `w` with
`1 ≤ w ≤ L`, the simple moving average (`rolling(window=w).mean()`, the
computation behind the `SMA 20`/`SMA 50` overlays) has length `L`, exactly
`w-1` leading undefined entries, and each defined entry lies within
`[min, max]` of its trailing `w`-sample window (hence within
`[min, max]` of the whole series). -/
theorem sma_length_prefix_and_bounds (s : List ℚ) (w : ℕ)
    (hne : s ≠ []) (hw1 : 1 ≤ w) (hwL : w ≤ s.length) :
    (rollingMean s w).length = s.length ∧
    (∀ i, i < w - 1 → (rollingMean s w).get? i = some none) ∧
    (∀ i, w - 1 ≤ i → i < s.length →
      ∃ m, (rollingMean s w).get? i = some (some m) ∧
        listMin (trailingWin s w i) ≤ m ∧ m ≤ listMax (trailingWin s w i) ∧
        listMin s ≤ m ∧ m ≤ listMax s) := by
  refine ⟨rollingApply_length _ _ _, ?_, ?_⟩
  · intro i hi
    have hiL : i < s.length := by omega
    rw [rollingMean, rollingApply_get? _ _ _ _ hiL, if_neg (by omega)]
  · intro i hwi hiL
    have hwin : w ≤ i + 1 := by omega
    have hlen : (trailingWin s w i).length = w := trailingWin_length s w i hwin hiL
    have hwne : trailingWin s w i ≠ [] := by
      intro h
      rw [h] at hlen
      simp at hlen
      omega
    refine ⟨listMean (trailingWin s w i), ?_, ?_, ?_, ?_, ?_⟩
    · rw [rollingMean, rollingApply_get? _ _ _ _ hiL, if_pos hwin]
    · exact (listMean_bounds _ hwne _ (listMax (trailingWin s w i))
        (fun x hx => listMin_le_of_mem hx) (fun x hx => le_listMax_of_mem hx)).1
    · exact (listMean_bounds _ hwne (listMin (trailingWin s w i)) _
        (fun x hx => listMin_le_of_mem hx) (fun x hx => le_listMax_of_mem hx)).2
    · exact (listMean_bounds _ hwne _ (listMax s)
        (fun x hx => listMin_le_of_mem (trailingWin_mem hx))
        (fun x hx => le_listMax_of_mem (trailingWin_mem hx))).1
    · exact (listMean_bounds _ hwne (listMin s) _
        (fun x hx => listMin_le_of_mem (trailingWin_mem hx))
        (fun x hx => le_listMax_of_mem (trailingWin_mem hx))).2

/-- Witness for C1 at the concrete series `[1, 2, 3]` with window `2`. -/
theorem sma_length_prefix_and_bounds_witness :
    ∃ m, (rollingMean [(1 : ℚ), 2, 3] 2).get? 2 = some (some m) ∧
      listMin (trailingWin [(1 : ℚ), 2, 3] 2 2) ≤ m ∧
      m ≤ listMax (trailingWin [(1 : ℚ), 2, 3] 2 2) ∧
      listMin [(1 : ℚ), 2, 3] ≤ m ∧ m ≤ listMax [(1 : ℚ), 2, 3] :=
  (sma_length_prefix_and_bounds [(1 : ℚ), 2, 3] 2 (by decide) (by decide)
    (by decide)).2.2 2 (by decide) (by decide)

/-- Unbiased sample variance of a list (`ddof = 1`, the pandas default for
`rolling.std()`): `Σ (x - mean)² / (len - 1)`. -/
def sampleVar (l : List ℚ) : ℚ :=
  (l.map fun x => (x - listMean l) ^ 2).sum / ((l.length - 1 : ℕ) : ℚ)

/-- Embeds `bb_std = df['price'].rolling(window=20).std()` of
`create_professional_chart` (src/pages/1_📈_Price_Charts.py, line 327) as a
rolling sample variance; the standard deviation is its square root. -/
def bb_var (price : List ℚ) : List (Option ℚ) := rollingApply sampleVar 20 price

/-- Embeds `bb_middle = df['price'].rolling(window=20).mean()`
(src/pages/1_📈_Price_Charts.py, line 326). -/
def bb_middle (price : List ℚ) : List (Option ℚ) := rollingMean price 20

/-- Elementwise pandas binary arithmetic on two aligned series:
`NaN` (`none`) propagates. -/
def seriesZip (f : ℝ → ℝ → ℝ) : List (Option ℝ) → List (Option ℝ) → List (Option ℝ) :=
  List.zipWith fun a b =>
    match a, b with
    | some x, some y => some (f x y)
    | _, _ => none

/-- The rolling standard deviation series over the reals. -/
noncomputable def bb_std (price : List ℚ) : List (Option ℝ) :=
  (bb_var price).map (Option.map fun v : ℚ => Real.sqrt (v : ℝ))

/-- Embeds `bb_upper = bb_middle + (bb_std * 2)`
(src/pages/1_📈_Price_Charts.py, line 328). -/
noncomputable def bb_upper (price : List ℚ) : List (Option ℝ) :=
  seriesZip (fun m sd => m + sd * 2)
    ((bb_middle price).map (Option.map fun q : ℚ => (q : ℝ))) (bb_std price)

/-- Embeds `bb_lower = bb_middle - (bb_std * 2)`
(src/pages/1_📈_Price_Charts.py, line 329). -/
noncomputable def bb_lower (price : List ℚ) : List (Option ℝ) :=
  seriesZip (fun m sd => m - sd * 2)
    ((bb_middle price).map (Option.map fun q : ℚ => (q : ℝ))) (bb_std price)

theorem seriesZip_get?_some (f : ℝ → ℝ → ℝ) (as bs : List (Option ℝ)) (i : ℕ)
    (x y : ℝ) (hx : as.get? i = some (some x)) (hy : bs.get? i = some (some y)) :
    (seriesZip f as bs).get? i = some (some (f x y)) := by
  rw [seriesZip, List.get?_zipWith_eq_some]
  exact ⟨some x, some y, hx, hy, rfl⟩

/-- C2: at every index at which the Bollinger Bands are defined (the 20-sample
middle SMA and the 20-sample rolling variance both defined), the bands of
`create_professional_chart` satisfy `lower ≤ middle ≤ upper`, since
`upper/lower = middle ± 2·√variance` and square roots are nonnegative. -/
theorem bollinger_bands_ordered (price : List ℚ) (i : ℕ) (m v : ℚ)
    (hm : (bb_middle price).get? i = some (some m))
    (hv : (bb_var price).get? i = some (some v)) :
    ∃ u l, (bb_upper price).get? i = some (some u) ∧
      (bb_lower price).get? i = some (some l) ∧ l ≤ (m : ℝ) ∧ (m : ℝ) ≤ u := by
  have hmR : ((bb_middle price).map (Option.map fun q : ℚ => (q : ℝ))).get? i =
      some (some (m : ℝ)) := by
    rw [List.get?_eq_getElem?] at hm ⊢
    simp [List.getElem?_map, hm]
  have hsd : (bb_std price).get? i = some (some (Real.sqrt (v : ℝ))) := by
    rw [bb_std, List.get?_eq_getElem?] at *
    simp [List.getElem?_map, hv]
  refine ⟨(m : ℝ) + Real.sqrt (v : ℝ) * 2, (m : ℝ) - Real.sqrt (v : ℝ) * 2,
    seriesZip_get?_some _ _ _ _ _ _ hmR hsd,
    seriesZip_get?_some _ _ _ _ _ _ hmR hsd, ?_, ?_⟩
  · have := Real.sqrt_nonneg (v : ℝ)
    linarith
  · have := Real.sqrt_nonneg (v : ℝ)
    linarith

/-- Witness for C2 at the constant series of twenty `1`s, index `19`. -/
theorem bollinger_bands_ordered_witness :
    ∃ u l, (bb_upper (List.replicate 20 (1 : ℚ))).get? 19 = some (some u) ∧
      (bb_lower (List.replicate 20 (1 : ℚ))).get? 19 = some (some l) ∧
      l ≤ ((1 : ℚ) : ℝ) ∧ ((1 : ℚ) : ℝ) ≤ u :=
  bollinger_bands_ordered (List.replicate 20 (1 : ℚ)) 19 1 0
    (by
      rw [bb_middle, rollingMean, rollingApply_get? listMean 20 _ 19 (by simp),
        if_pos (by omega)]
      simp [trailingWin, listMean, List.sum_replicate]
      norm_num)
    (by
      rw [bb_var, rollingApply_get? sampleVar 20 _ 19 (by simp), if_pos (by omega)]
      simp [trailingWin, sampleVar, listMean, List.sum_replicate]
      norm_num)

/-- Recursive step of the exponential moving average:
`v_k = α·x_k + (1-α)·v_{k-1}`. -/
def emaFrom (α prev : ℚ) : List ℚ → List ℚ
  | [] => []
  | x :: xs => (α * x + (1 - α) * prev) :: emaFrom α (α * x + (1 - α) * prev) xs

/-- Modelled from the spec: `exponential_moving_average(series, span)` of the
indicator engine (`utils/data.py` is imported by the pages but its source is
not in the repository snapshot).  Smoothing factor `α = 2/(span+1)`, first
value seeded from the first sample. -/
def ema (span : ℕ) : List ℚ → List ℚ
  | [] => []
  | x :: xs => x :: emaFrom (2 / ((span : ℚ) + 1)) x xs

/-- Modelled from the spec: `macd_line = EMA(fast=12) - EMA(slow=26)`. -/
def macd_line (s : List ℚ) : List ℚ :=
  List.zipWith (fun a b => a - b) (ema 12 s) (ema 26 s)

/-- Modelled from the spec: `signal_line = EMA(macd_line, span=9)`. -/
def macd_signal (s : List ℚ) : List ℚ := ema 9 (macd_line s)

/-- Modelled from the spec: `histogram = macd_line - signal_line`. -/
def macd_histogram (s : List ℚ) : List ℚ :=
  List.zipWith (fun a b => a - b) (macd_line s) (macd_signal s)

theorem emaFrom_length (α prev : ℚ) (l : List ℚ) :
    (emaFrom α prev l).length = l.length := by
  induction l generalizing prev with
  | nil => rfl
  | cons x xs ih => simp [emaFrom, ih]

theorem ema_length (span : ℕ) (s : List ℚ) : (ema span s).length = s.length := by
  cases s with
  | nil => rfl
  | cons x xs => simp [ema, emaFrom_length]

theorem macd_line_length (s : List ℚ) : (macd_line s).length = s.length := by
  simp [macd_line, ema_length]

theorem macd_signal_length (s : List ℚ) : (macd_signal s).length = s.length := by
  simp [macd_signal, ema_length, macd_line_length]

theorem macd_histogram_length (s : List ℚ) :
    (macd_histogram s).length = s.length := by
  simp [macd_histogram, macd_line_length, macd_signal_length]

/-- C3: the three MACD series are aligned with the input, and at every index
the histogram value is exactly the MACD-line value minus the signal-line
value (an identity, not an approximation). -/
theorem macd_histogram_identity (s : List ℚ) (i : ℕ) (hi : i < s.length) :
    (macd_line s).length = s.length ∧
    (macd_signal s).length = s.length ∧
    (macd_histogram s).length = s.length ∧
    ∃ ml sl, (macd_line s).get? i = some ml ∧ (macd_signal s).get? i = some sl ∧
      (macd_histogram s).get? i = some (ml - sl) := by
  refine ⟨macd_line_length s, macd_signal_length s, macd_histogram_length s, ?_⟩
  have hil : i < (macd_line s).length := by rw [macd_line_length]; exact hi
  have his : i < (macd_signal s).length := by rw [macd_signal_length]; exact hi
  refine ⟨(macd_line s).get ⟨i, hil⟩, (macd_signal s).get ⟨i, his⟩,
    List.get?_eq_get hil, List.get?_eq_get his, ?_⟩
  rw [macd_histogram, List.get?_zipWith_eq_some]
  exact ⟨_, _, List.get?_eq_get hil, List.get?_eq_get his, rfl⟩

/-- Witness for C3 at the concrete series `[3, 1, 4]`, index `1`. -/
theorem macd_histogram_identity_witness :
    (macd_line [(3 : ℚ), 1, 4]).length = ([(3 : ℚ), 1, 4]).length ∧
    (macd_signal [(3 : ℚ), 1, 4]).length = ([(3 : ℚ), 1, 4]).length ∧
    (macd_histogram [(3 : ℚ), 1, 4]).length = ([(3 : ℚ), 1, 4]).length ∧
    ∃ ml sl, (macd_line [(3 : ℚ), 1, 4]).get? 1 = some ml ∧
      (macd_signal [(3 : ℚ), 1, 4]).get? 1 = some sl ∧
      (macd_histogram [(3 : ℚ), 1, 4]).get? 1 = some (ml - sl) :=
  macd_histogram_identity [(3 : ℚ), 1, 4] 1 (by decide)

/-- Successive differences `s[i+1] - s[i]` of a price series. -/
def diffs : List ℚ → List ℚ
  | x :: y :: xs => (y - x) :: diffs (y :: xs)
  | _ => []

/-- One step of Wilder smoothing:
`avg = (prev_avg * (period - 1) + current) / period`, iterated. -/
def wilder (p : ℕ) (prev : ℚ) : List ℚ → List ℚ
  | [] => []
  | x :: xs =>
    ((prev * ((p : ℕ) - 1 : ℚ) + x) / p) ::
      wilder p ((prev * ((p : ℕ) - 1 : ℚ) + x) / p) xs

/-- Modelled from the spec: the Wilder averages of a gain/loss sequence —
the first average is the simple mean of the first `p` entries, the rest are
Wilder-smoothed; empty when fewer than `p` entries are available. -/
def wilderAvgs (p : ℕ) (l : List ℚ) : List ℚ :=
  if p ≤ l.length then
    ((l.take p).sum / p) :: wilder p ((l.take p).sum / p) (l.drop p)
  else []

/-- Modelled from the spec: `RSI = 100 - 100/(1 + avg_gain/avg_loss)`, and
exactly `100` when the average loss is exactly `0`. -/
def rsiVal (ag al : ℚ) : ℚ := if al = 0 then 100 else 100 - 100 / (1 + ag / al)

/-- The gain sequence `max(delta, 0)`. -/
def gains (s : List ℚ) : List ℚ := (diffs s).map fun d => max d 0

/-- The loss sequence `max(-delta, 0)`. -/
def losses (s : List ℚ) : List ℚ := (diffs s).map fun d => max (-d) 0

/-- Modelled from the spec: `rsi(series, period)` — Wilder's RSI, aligned
with the input, undefined for the first `period` samples. -/
def rsi (period : ℕ) (s : List ℚ) : List (Option ℚ) :=
  List.replicate (min s.length period) none ++
    List.zipWith (fun a b => some (rsiVal a b))
      (wilderAvgs period (gains s)) (wilderAvgs period (losses s))

theorem diffs_length (s : List ℚ) : (diffs s).length = s.length - 1 := by
  induction s with
  | nil => rfl
  | cons x xs ih =>
    cases xs with
    | nil => rfl
    | cons y ys =>
      simp only [diffs, List.length_cons] at ih ⊢
      omega

theorem wilder_length (p : ℕ) (prev : ℚ) (l : List ℚ) :
    (wilder p prev l).length = l.length := by
  induction l generalizing prev with
  | nil => rfl
  | cons x xs ih => simp [wilder, ih]

theorem wilderAvgs_length (p : ℕ) (l : List ℚ) (h : p ≤ l.length) :
    (wilderAvgs p l).length = l.length - p + 1 := by
  simp [wilderAvgs, if_pos h, wilder_length]

theorem wilder_nonneg (p : ℕ) (hp : 1 ≤ p) (prev : ℚ) (hprev : 0 ≤ prev)
    (l : List ℚ) (hl : ∀ x ∈ l, 0 ≤ x) : ∀ y ∈ wilder p prev l, 0 ≤ y := by
  induction l generalizing prev with
  | nil => simp [wilder]
  | cons x xs ih =>
    have hpQ : (1 : ℚ) ≤ (p : ℚ) := by exact_mod_cast hp
    have hstep : 0 ≤ (prev * ((p : ℕ) - 1 : ℚ) + x) / p := by
      apply div_nonneg
      · have hx : 0 ≤ x := hl x (List.mem_cons_self x xs)
        have : (0 : ℚ) ≤ ((p : ℕ) : ℚ) - 1 := by
          push_cast
          linarith
        nlinarith
      · positivity
    intro y hy
    rcases List.mem_cons.mp hy with h | h
    · exact h ▸ hstep
    · exact ih _ hstep (fun z hz => hl z (List.mem_cons_of_mem x hz)) y h

theorem wilderAvgs_nonneg (p : ℕ) (hp : 1 ≤ p) (l : List ℚ)
    (hl : ∀ x ∈ l, 0 ≤ x) : ∀ y ∈ wilderAvgs p l, 0 ≤ y := by
  intro y hy
  rw [wilderAvgs] at hy
  by_cases h : p ≤ l.length
  · rw [if_pos h] at hy
    have hinit : 0 ≤ (l.take p).sum / (p : ℚ) := by
      apply div_nonneg
      · exact List.sum_nonneg fun x hx => hl x (List.mem_of_mem_take hx)
      · positivity
    rcases List.mem_cons.mp hy with hc | hc
    · exact hc ▸ hinit
    · exact wilder_nonneg p hp _ hinit _
        (fun z hz => hl z (List.mem_of_mem_drop hz)) y hc
  · rw [if_neg h] at hy
    simp at hy

theorem rsiVal_bounds (ag al : ℚ) (hag : 0 ≤ ag) (hal : 0 ≤ al) :
    0 ≤ rsiVal ag al ∧ rsiVal ag al ≤ 100 := by
  rw [rsiVal]
  by_cases h : al = 0
  · rw [if_pos h]
    norm_num
  · rw [if_neg h]
    have halpos : 0 < al := lt_of_le_of_ne hal (Ne.symm h)
    have hr : 0 ≤ ag / al := div_nonneg hag hal
    have h1 : (0 : ℚ) < 1 + ag / al := by linarith
    constructor
    · have : 100 / (1 + ag / al) ≤ 100 := div_le_self (by norm_num) (by linarith)
      linarith
    · have : 0 ≤ 100 / (1 + ag / al) := div_nonneg (by norm_num) (le_of_lt h1)
      linarith

theorem rsi_get?_cases {period : ℕ} {s : List ℚ} {i : ℕ} {r : ℚ}
    (h : (rsi period s).get? i = some (some r)) :
    ∃ j a b, (wilderAvgs period (gains s)).get? j = some a ∧
      (wilderAvgs period (losses s)).get? j = some b ∧ r = rsiVal a b := by
  rw [rsi] at h
  rcases lt_or_ge i (min s.length period) with hlt | hge
  · rw [List.get?_append (by simpa using hlt)] at h
    rw [List.get?_eq_getElem?, List.getElem?_replicate, if_pos hlt] at h
    simp at h
  · rw [List.get?_append_right (by simpa using hge)] at h
    simp only [List.length_replicate] at h
    obtain ⟨a, b, ha, hb, hab⟩ := (List.get?_zipWith_eq_some _ _ _ _ _).mp h
    exact ⟨i - min s.length period, a, b, ha, hb, by
      injection hab.symm with h2⟩

theorem gains_nonneg (s : List ℚ) : ∀ x ∈ gains s, 0 ≤ x := by
  intro x hx
  obtain ⟨d, _, hd⟩ := List.mem_map.mp hx
  exact hd ▸ le_max_right d 0

theorem losses_nonneg (s : List ℚ) : ∀ x ∈ losses s, 0 ≤ x := by
  intro x hx
  obtain ⟨d, _, hd⟩ := List.mem_map.mp hx
  exact hd ▸ le_max_right (-d) 0

/-- Every defined RSI entry lies in `[0, 100]`. -/
theorem rsi_mem_range (period : ℕ) (hp : 1 ≤ period) (s : List ℚ) (i : ℕ)
    (r : ℚ) (h : (rsi period s).get? i = some (some r)) : 0 ≤ r ∧ r ≤ 100 := by
  obtain ⟨j, a, b, ha, hb, hr⟩ := rsi_get?_cases h
  have hag : 0 ≤ a :=
    wilderAvgs_nonneg period hp _ (gains_nonneg s) a (List.get?_mem ha)
  have hal : 0 ≤ b :=
    wilderAvgs_nonneg period hp _ (losses_nonneg s) b (List.get?_mem hb)
  exact hr ▸ rsiVal_bounds a b hag hal

theorem wilder_all_zero (p : ℕ) (prev : ℚ) (hprev : prev = 0) (l : List ℚ)
    (hl : ∀ x ∈ l, x = 0) : ∀ y ∈ wilder p prev l, y = 0 := by
  induction l generalizing prev with
  | nil => simp [wilder]
  | cons x xs ih =>
    have hx : x = 0 := hl x (List.mem_cons_self x xs)
    have hv : (prev * ((p : ℕ) - 1 : ℚ) + x) / p = 0 := by
      rw [hprev, hx]
      simp
    intro y hy
    rcases List.mem_cons.mp hy with h | h
    · exact h ▸ hv
    · exact ih _ hv (fun z hz => hl z (List.mem_cons_of_mem x hz)) y h

theorem wilderAvgs_all_zero (p : ℕ) (l : List ℚ) (hl : ∀ x ∈ l, x = 0) :
    ∀ y ∈ wilderAvgs p l, y = 0 := by
  intro y hy
  rw [wilderAvgs] at hy
  by_cases h : p ≤ l.length
  · rw [if_pos h] at hy
    have hinit : (l.take p).sum / (p : ℚ) = 0 := by
      rw [List.sum_eq_zero fun x hx => hl x (List.mem_of_mem_take hx)]
      simp
    rcases List.mem_cons.mp hy with hc | hc
    · exact hc ▸ hinit
    · exact wilder_all_zero p _ hinit _
        (fun z hz => hl z (List.mem_of_mem_drop hz)) y hc
  · rw [if_neg h] at hy
    simp at hy

/-- When every successive difference is positive, every loss is `0`, the
Wilder average loss is exactly `0`, and the RSI at the final index is
exactly `100`. -/
theorem rsi_of_gains (period : ℕ) (s : List ℚ)
    (hd : ∀ d ∈ diffs s, 0 < d) (hL : period + 1 ≤ s.length) :
    (rsi period s).get? (s.length - 1) = some (some 100) := by
  have hdl : (diffs s).length = s.length - 1 := diffs_length s
  have hgl : (gains s).length = s.length - 1 := by
    rw [gains, List.length_map, hdl]
  have hll : (losses s).length = s.length - 1 := by
    rw [losses, List.length_map, hdl]
  have hpd : period ≤ s.length - 1 := by omega
  have hga : (wilderAvgs period (gains s)).length = s.length - 1 - period + 1 :=
    by rw [wilderAvgs_length period _ (by omega), hgl]
  have hla : (wilderAvgs period (losses s)).length = s.length - 1 - period + 1 :=
    by rw [wilderAvgs_length period _ (by omega), hll]
  have hmin : min s.length period = period := by omega
  have hlosses0 : ∀ x ∈ losses s, x = 0 := by
    intro x hx
    obtain ⟨d, hdmem, hdx⟩ := List.mem_map.mp hx
    rw [← hdx, max_eq_right (neg_nonpos.mpr (le_of_lt (hd d hdmem)))]
  rw [rsi, List.get?_append_right (by simp only [List.length_replicate, hmin]; omega)]
  simp only [List.length_replicate, hmin]
  have hjga : s.length - 1 - period < (wilderAvgs period (gains s)).length := by
    omega
  have hjla : s.length - 1 - period < (wilderAvgs period (losses s)).length := by
    omega
  rw [List.get?_zipWith_eq_some]
  refine ⟨(wilderAvgs period (gains s)).get ⟨_, hjga⟩,
    (wilderAvgs period (losses s)).get ⟨_, hjla⟩,
    List.get?_eq_get hjga, List.get?_eq_get hjla, ?_⟩
  have hb0 : (wilderAvgs period (losses s)).get ⟨_, hjla⟩ = 0 :=
    wilderAvgs_all_zero period (losses s) hlosses0 _
      (List.get?_mem (List.get?_eq_get hjla))
  rw [hb0, rsiVal, if_pos rfl]

/-- The 30 ascending integer prices `1, 2, ..., 30` of the spec scenario. -/
def ascending30 : List ℚ :=
  [1, 2, 3, 4, 5, 6, 7, 8, 9, 10, 11, 12, 13, 14, 15, 16, 17, 18, 19, 20,
   21, 22, 23, 24, 25, 26, 27, 28, 29, 30]

/-- C4: every defined value of `rsi` with period 14 lies in `[0, 100]`; a
price series whose successive differences are all positive over at least
`period + 1` samples has RSI exactly `100` at its final index; and on the
spec scenario `[1, 2, ..., 30]` the RSI at index 29 is exactly `100`. -/
theorem rsi_range_and_ascending (s : List ℚ) (i : ℕ) (r : ℚ) :
    ((rsi 14 s).get? i = some (some r) → 0 ≤ r ∧ r ≤ 100) ∧
    ((∀ d ∈ diffs s, 0 < d) → 15 ≤ s.length →
      (rsi 14 s).get? (s.length - 1) = some (some 100)) ∧
    (rsi 14 ascending30).get? 29 = some (some 100) := by
  refine ⟨rsi_mem_range 14 (by omega) s i r, fun hd hL => rsi_of_gains 14 s hd hL, ?_⟩
  have h29 : ascending30.length - 1 = 29 := by rfl
  have := rsi_of_gains 14 ascending30 (by norm_num [ascending30, diffs]) (by norm_num [ascending30])
  rwa [h29] at this

/-- Witness for C4: the range property and the scenario evaluated at the
ascending series `[1, ..., 30]`, index 29, value 100. -/
theorem rsi_range_and_ascending_witness :
    (0 ≤ (100 : ℚ) ∧ (100 : ℚ) ≤ 100) ∧
    (rsi 14 ascending30).get? (ascending30.length - 1) = some (some 100) :=
  ⟨(rsi_range_and_ascending ascending30 29 100).1
      (rsi_range_and_ascending ascending30 29 100).2.2,
   (rsi_range_and_ascending ascending30 29 100).2.1
      (by norm_num [ascending30, diffs]) (by norm_num [ascending30])⟩

/-- Modelled from the spec: the error taxonomy of the indicator engine
(§7 of the spec; `utils/data.py` is not in the repository snapshot). -/
inductive IndicatorError where
  | emptySeries
  | insufficientData
  | misalignedSeries
deriving DecidableEq

/-- Modelled from the spec: `simple_moving_average` refuses an empty series
with `EmptySeriesError` and otherwise returns the rolling mean. -/
def simple_moving_averageE (s : List ℚ) (w : ℕ) :
    Except IndicatorError (List (Option ℚ)) :=
  if s.isEmpty then .error .emptySeries else .ok (rollingMean s w)

/-- Modelled from the spec: `exponential_moving_average` refuses an empty
series with `EmptySeriesError`. -/
def exponential_moving_averageE (s : List ℚ) (span : ℕ) :
    Except IndicatorError (List ℚ) :=
  if s.isEmpty then .error .emptySeries else .ok (ema span s)

/-- Modelled from the spec: `bollinger_bands` refuses an empty series with
`EmptySeriesError`, otherwise returns `(middle, upper, lower)`. -/
noncomputable def bollinger_bandsE (s : List ℚ) :
    Except IndicatorError (List (Option ℚ) × List (Option ℝ) × List (Option ℝ)) :=
  if s.isEmpty then .error .emptySeries
  else .ok (bb_middle s, bb_upper s, bb_lower s)

/-- Modelled from the spec: `rsi` refuses an empty series with
`EmptySeriesError`. -/
def rsiE (s : List ℚ) (period : ℕ) : Except IndicatorError (List (Option ℚ)) :=
  if s.isEmpty then .error .emptySeries else .ok (rsi period s)

/-- Modelled from the spec: `macd` refuses an empty series with
`EmptySeriesError`, otherwise returns the three aligned series. -/
def macdE (s : List ℚ) :
    Except IndicatorError (List ℚ × List ℚ × List ℚ) :=
  if s.isEmpty then .error .emptySeries
  else .ok (macd_line s, macd_signal s, macd_histogram s)

/-- C5: every indicator operation, given the empty price series, returns
`EmptySeriesError` and no partial output. -/
theorem empty_series_rejected (w span period : ℕ) :
    simple_moving_averageE [] w = .error .emptySeries ∧
    exponential_moving_averageE [] span = .error .emptySeries ∧
    bollinger_bandsE [] = .error .emptySeries ∧
    rsiE [] period = .error .emptySeries ∧
    macdE [] = .error .emptySeries :=
  ⟨rfl, rfl, rfl, rfl, rfl⟩

/-- Modelled from the spec: the Market Stats snapshot (§4.2); only the
fields the percent-change claims need are modelled, each `Option`-valued
(`none` = the statistic is missing/undefined). -/
structure MarketStats where
  current_price : Option ℚ
  price_change_24h : Option ℚ
  price_change_7d : Option ℚ
deriving DecidableEq

/-- Modelled from the spec: percent change between the last close and the
close `n` samples back; undefined (`none`) when the history is shorter. -/
def price_change (closes : List ℚ) (n : ℕ) : Option ℚ :=
  if n < closes.length then
    some ((closes.getD (closes.length - 1) 0 /
      closes.getD (closes.length - 1 - n) 0 - 1) * 100)
  else none

/-- Modelled from the spec: `get_market_stats` — the percent-change fields
are undefined, not zero, when the history is shorter than the window. -/
def get_market_stats (closes : List ℚ) (samples_per_day : ℕ) : MarketStats :=
  { current_price := closes.get? (closes.length - 1)
    price_change_24h := price_change closes samples_per_day
    price_change_7d := price_change closes (7 * samples_per_day) }

/-- Embeds `stats.get('price_change_24h', 0)` in `render_market_statistics`
(src/pages/1_📈_Price_Charts.py, line 590): a Python `dict.get` with
default `0`. -/
def displayed_delta_24h (stats : MarketStats) : ℚ :=
  stats.price_change_24h.getD 0

/-- Embeds `stats.get('price_change_7d', 0)` in `render_public_homepage`
(src/streamlit_app.py, line 127). -/
def displayed_delta_7d (stats : MarketStats) : ℚ :=
  stats.price_change_7d.getD 0

/-- Counterexample for C6: on the 3-sample series `[1, 2, 4]` with 24
samples per day, the 24h percent change is undefined (`none`), yet the
market-statistics caller displays the default `0` — exactly the value it
also displays for a legitimately zero change (series `[1, 1]`, 1 sample per
day), so the callers substitute zero for the missing statistic instead of
handling it as missing. -/
theorem price_change_callers_substitute_zero :
    (get_market_stats [(1 : ℚ), 2, 4] 24).price_change_24h = none ∧
    displayed_delta_24h (get_market_stats [(1 : ℚ), 2, 4] 24) = 0 ∧
    displayed_delta_7d (get_market_stats [(1 : ℚ), 2, 4] 24) = 0 ∧
    (get_market_stats [(1 : ℚ), 1] 1).price_change_24h = some 0 ∧
    displayed_delta_24h (get_market_stats [(1 : ℚ), 1] 1) = 0 := by
  refine ⟨rfl, rfl, rfl, ?_, ?_⟩
  · simp [get_market_stats, price_change]
  · simp [displayed_delta_24h, get_market_stats, price_change]

/-- C6 (amended): when the history is shorter than the window, the
percent-change statistics are undefined (`none`), not zero; but the
homepage and market-statistics callers read them with a default of `0`,
substituting zero for the missing statistic. -/
theorem price_change_undefined_callers_default_zero (closes : List ℚ)
    (spd : ℕ) (h : closes.length ≤ spd) :
    (get_market_stats closes spd).price_change_24h = none ∧
    displayed_delta_24h (get_market_stats closes spd) = 0 ∧
    (get_market_stats closes spd).price_change_7d = none ∧
    displayed_delta_7d (get_market_stats closes spd) = 0 := by
  have h24 : (get_market_stats closes spd).price_change_24h = none := by
    simp only [get_market_stats, price_change]
    rw [if_neg (by omega)]
  have h7 : (get_market_stats closes spd).price_change_7d = none := by
    simp only [get_market_stats, price_change]
    rw [if_neg (by omega)]
  exact ⟨h24, by simp [displayed_delta_24h, h24], h7,
    by simp [displayed_delta_7d, h7]⟩

/-- Witness for the amended C6 at the 2-sample series `[1, 2]` with 24
samples per day. -/
theorem price_change_undefined_callers_default_zero_witness :
    (get_market_stats [(1 : ℚ), 2] 24).price_change_24h = none ∧
    displayed_delta_24h (get_market_stats [(1 : ℚ), 2] 24) = 0 ∧
    (get_market_stats [(1 : ℚ), 2] 24).price_change_7d = none ∧
    displayed_delta_7d (get_market_stats [(1 : ℚ), 2] 24) = 0 :=
  price_change_undefined_callers_default_zero [(1 : ℚ), 2] 24 (by simp)

/-- Python truthiness of an optional numeric value: `None` and `0` are
falsy, every other number is truthy.  This is the test performed by
`if rsi_value:` / `if macd_value:` / `if bb_position:` in
`render_indicators_tab` (src/pages/1_📈_Price_Charts.py, lines 457-472). -/
def pyTruthy : Option ℚ → Bool
  | none => false
  | some v => decide (v ≠ 0)

/-- Embeds `rsi_value = current_values.get('rsi'); if rsi_value:`
(src/pages/1_📈_Price_Charts.py, lines 458-459): the RSI metric is rendered
only when the retrieved value is truthy. -/
def shows_rsi_metric (current_values : List (String × ℚ)) : Bool :=
  pyTruthy (current_values.lookup "rsi")

/-- Embeds `macd_value = current_values.get('macd'); if macd_value:`
(src/pages/1_📈_Price_Charts.py, lines 465-466). -/
def shows_macd_metric (current_values : List (String × ℚ)) : Bool :=
  pyTruthy (current_values.lookup "macd")

/-- Embeds `bb_position = current_values.get('bb_position'); if bb_position:`
(src/pages/1_📈_Price_Charts.py, lines 470-471). -/
def shows_bb_position (current_values : List (String × ℚ)) : Bool :=
  pyTruthy (current_values.lookup "bb_position")

/-- C7: on a snapshot whose MACD (and RSI) value is exactly `0` — a defined
value — the display call sites test truthiness, not definedness, so the
metric is suppressed exactly as if it were absent, while a nonzero value is
shown. -/
theorem zero_valued_metric_suppressed :
    ([("macd", (0 : ℚ)), ("rsi", 0), ("bb_position", 0)].lookup "macd"
      = some 0) ∧
    shows_macd_metric [("macd", (0 : ℚ)), ("rsi", 0), ("bb_position", 0)]
      = false ∧
    shows_rsi_metric [("macd", (0 : ℚ)), ("rsi", 0), ("bb_position", 0)]
      = false ∧
    shows_bb_position [("macd", (0 : ℚ)), ("rsi", 0), ("bb_position", 0)]
      = false ∧
    shows_macd_metric [] = false ∧
    shows_macd_metric [("macd", (1 : ℚ))] = true := by
  decide

/-- A per-user record of the credentials store
(src/utils/auth.py, `get_auth_config` / `add_user`). -/
structure UserRec where
  email : String
  first_name : String
  last_name : String
  password : String
  subscription : String
  failed_login_attempts : ℕ
  logged_in : Bool
  created_at : Option String
deriving DecidableEq

/-- The authentication configuration of src/utils/auth.py: credentials
(an insertion-ordered username → record map, as a Python dict), cookie
settings and the preauthorized email list. -/
structure AuthConfig where
  usernames : List (String × UserRec)
  cookie_name : String
  cookie_key : String
  cookie_expiry_days : ℕ
  preauthorized : List String
deriving DecidableEq

/-- Embeds `default_config` of `get_auth_config`
(src/utils/auth.py, lines 20-61): three built-in users, the admin with the
plaintext password `admin123` stored in code. -/
def default_config : AuthConfig :=
  { usernames :=
      [("admin",
        { email := "admin@kaspalytics.com", first_name := "Admin",
          last_name := "User", password := "admin123",
          subscription := "premium", failed_login_attempts := 0,
          logged_in := false, created_at := none }),
       ("premium_user",
        { email := "premium@example.com", first_name := "Premium",
          last_name := "User", password := "premium123",
          subscription := "premium", failed_login_attempts := 0,
          logged_in := false, created_at := none }),
       ("free_user",
        { email := "free@example.com", first_name := "Free",
          last_name := "User", password := "free123",
          subscription := "free", failed_login_attempts := 0,
          logged_in := false, created_at := none })]
    cookie_name := "kaspa_analytics_auth"
    cookie_key := "kaspa_secret_key_change_in_production"
    cookie_expiry_days := 30
    preauthorized := ["admin@kaspalytics.com", "newuser@kaspalytics.com"] }

/-- Embeds `get_auth_config` (src/utils/auth.py, lines 15-77).  The file
system and Streamlit session state are made explicit: `fileExists` models
`config_path.exists()`, `loaded` the outcome of `yaml.load` (`.error` = the
load raised), `session` the value of `st.session_state.auth_config` if
present.  Returns the function result paired with the updated session
state. -/
def get_auth_config (fileExists : Bool) (loaded : Except Unit AuthConfig)
    (session : Option AuthConfig) : AuthConfig × Option AuthConfig :=
  let config :=
    if fileExists then
      match loaded with
      | .ok c => c
      | .error _ => default_config
    else default_config
  match session with
  | none => (config, some config)
  | some c => (c, some c)

/-- Counterexample for C8: when a (modified) configuration is already
cached in Streamlit session state, `get_auth_config` returns the cached
configuration, not the built-in default, even though the YAML file is
missing. -/
theorem get_auth_config_counterexample :
    (get_auth_config false (.error ())
      (some { default_config with cookie_name := "other" })).1
      ≠ default_config := by
  decide

/-- C8 (amended): on every execution with no cached session config in which
the YAML file does not exist or its load raises, `get_auth_config` returns
(and caches) the built-in default configuration, which contains an admin
user with the plaintext password `admin123` stored in code; when a config
is already cached in session state, the cached config is returned instead. -/
theorem get_auth_config_default_fallback (fileExists : Bool)
    (loaded : Except Unit AuthConfig)
    (hfail : fileExists = false ∨ ∃ e, loaded = .error e) :
    (get_auth_config fileExists loaded none).1 = default_config ∧
    (get_auth_config fileExists loaded none).2 = some default_config ∧
    (default_config.usernames.lookup "admin").map UserRec.password
      = some "admin123" ∧
    ∀ cached : AuthConfig,
      (get_auth_config fileExists loaded (some cached)).1 = cached := by
  have hconfig : (get_auth_config fileExists loaded none).1 = default_config ∧
      (get_auth_config fileExists loaded none).2 = some default_config := by
    rcases hfail with h | ⟨e, h⟩
    · subst h
      exact ⟨rfl, rfl⟩
    · subst h
      cases fileExists <;> exact ⟨rfl, rfl⟩
  exact ⟨hconfig.1, hconfig.2, rfl, fun cached => rfl⟩

/-- Witness for C8 (amended): the file is absent and the load raised;
nothing is cached. -/
theorem get_auth_config_default_fallback_witness :
    (get_auth_config false (.error ()) none).1 = default_config ∧
    (get_auth_config false (.error ()) none).2 = some default_config ∧
    (default_config.usernames.lookup "admin").map UserRec.password
      = some "admin123" ∧
    ∀ cached : AuthConfig,
      (get_auth_config false (.error ()) (some cached)).1 = cached :=
  get_auth_config_default_fallback false (.error ()) (Or.inl rfl)

/-- Embeds `feature_requirements` of `check_feature_access`
(src/utils/auth.py, lines 265-275). -/
def feature_requirements : List (String × List String) :=
  [("price_charts", ["public", "free", "premium"]),
   ("power_law", ["public", "free", "premium"]),
   ("network_metrics", ["public", "free", "premium"]),
   ("technical_indicators", ["public", "free", "premium"]),
   ("advanced_charts", ["public", "free", "premium"]),
   ("data_export", ["premium"]),
   ("api_access", ["premium"])]

/-- Embeds `check_feature_access` (src/utils/auth.py, lines 263-278):
`feature_requirements.get(feature_name, ['public', 'free', 'premium'])`
followed by `user_subscription in required_subscriptions`. -/
def check_feature_access (feature_name user_subscription : String) : Bool :=
  ((feature_requirements.lookup feature_name).getD
    ["public", "free", "premium"]).contains user_subscription

/-- C9: a feature name not listed in the requirements table is accessible
to every subscription level of the system (including `public`); the two
listed premium features `data_export` and `api_access` are accessible
exactly to `premium`. -/
theorem check_feature_access_defaults (f s : String)
    (hf : feature_requirements.lookup f = none)
    (hs : s = "public" ∨ s = "free" ∨ s = "premium") :
    check_feature_access f s = true ∧
    ∀ t : String, (check_feature_access "data_export" t = true ↔ t = "premium") ∧
      (check_feature_access "api_access" t = true ↔ t = "premium") := by
  constructor
  · rw [check_feature_access, hf]
    rcases hs with h | h | h <;> subst h <;> decide
  · intro t
    constructor <;>
      simp [check_feature_access, feature_requirements, List.lookup,
        eq_comm]

/-- Witness for C9 at the unknown feature `"heatmap"` and subscription
`"public"`. -/
theorem check_feature_access_defaults_witness :
    check_feature_access "heatmap" "public" = true ∧
    ∀ t : String, (check_feature_access "data_export" t = true ↔ t = "premium") ∧
      (check_feature_access "api_access" t = true ↔ t = "premium") :=
  check_feature_access_defaults "heatmap" "public" (by decide) (Or.inl rfl)

/-- The record `add_user` inserts for a new user
(src/utils/auth.py, lines 174-183): hashed password, zero failed logins,
logged out, creation timestamp. -/
def newUserRec (email first_name last_name password subscription now : String) :
    UserRec :=
  { email := email, first_name := first_name, last_name := last_name,
    password := password, subscription := subscription,
    failed_login_attempts := 0, logged_in := false, created_at := some now }

/-- Embeds `add_user` (src/utils/auth.py, lines 156-188).  `hashed` models
the outcome of `bcrypt.hashpw` (`.error` = the call raised, carrying the
exception text); `now` models `datetime.now().isoformat()`.  Returns the
resulting configuration (the Python code mutates the session-held dict only
on the success path) together with the `(success, message)` pair. -/
def add_user (config : AuthConfig) (username email first_name last_name : String)
    (hashed : Except String String) (subscription now : String) :
    AuthConfig × Bool × String :=
  if (config.usernames.lookup username).isSome then
    (config, false, "Username already exists")
  else if !(email.data.contains '@') then
    (config, false, "Invalid email format")
  else
    match hashed with
    | .error e => (config, false, "Password hashing error: " ++ e)
    | .ok h =>
      ({ config with usernames := config.usernames ++
          [(username, newUserRec email first_name last_name h subscription now)] },
       true, "User created successfully")

theorem lookup_append_self {l : List (String × UserRec)} {k : String}
    {v : UserRec} (hk : l.lookup k = none) :
    (l ++ [(k, v)]).lookup k = some v := by
  induction l with
  | nil => simp [List.lookup]
  | cons p ps ih =>
    cases h : (k == p.1) with
    | true => simp [List.lookup, h] at hk
    | false =>
      simp only [List.lookup, h] at hk
      simpa [List.lookup, h] using ih hk

theorem lookup_append_other {l : List (String × UserRec)} {k u : String}
    {v : UserRec} (hne : u ≠ k) :
    (l ++ [(k, v)]).lookup u = l.lookup u := by
  induction l with
  | nil =>
    have hbeq : (u == k) = false := beq_eq_false_iff_ne.mpr hne
    simp [List.lookup, hbeq]
  | cons p ps ih =>
    cases h : (u == p.1) with
    | true => simp [List.lookup, h]
    | false =>
      simp only [List.cons_append, List.lookup, h]
      exact ih

/-- C10: whenever `add_user` fails (username taken, email without `@`, or
password hashing raised), the credentials configuration is unchanged; on
success the requested username did not exist before, and exactly that one
username is appended — its record is retrievable and every other username
resolves as before. -/
theorem add_user_atomic (config : AuthConfig)
    (username email fn ln : String) (hashed : Except String String)
    (sub now : String) (c' : AuthConfig) (ok : Bool) (msg : String)
    (hrun : add_user config username email fn ln hashed sub now = (c', ok, msg)) :
    (ok = false → c' = config) ∧
    (ok = true →
      config.usernames.lookup username = none ∧
      ∃ h, hashed = .ok h ∧
        c'.usernames = config.usernames ++
          [(username, newUserRec email fn ln h sub now)] ∧
        c'.usernames.lookup username = some (newUserRec email fn ln h sub now) ∧
        ∀ u : String, u ≠ username →
          c'.usernames.lookup u = config.usernames.lookup u) := by
  rw [add_user.eq_def] at hrun
  by_cases h1 : (config.usernames.lookup username).isSome
  · rw [if_pos h1] at hrun
    injection hrun with hc hrest
    injection hrest with hok hmsg
    subst hc
    subst hok
    exact ⟨fun _ => rfl, fun h => by simp at h⟩
  · rw [if_neg h1] at hrun
    have hnone : config.usernames.lookup username = none :=
      Option.not_isSome_iff_eq_none.mp h1
    by_cases h2 : email.data.contains '@'
    · rw [if_neg (by rw [h2]; decide)] at hrun
      cases hashed with
      | error e =>
        injection hrun with hc hrest
        injection hrest with hok hmsg
        subst hc
        subst hok
        exact ⟨fun _ => rfl, fun h => by simp at h⟩
      | ok h =>
        injection hrun with hc hrest
        injection hrest with hok hmsg
        subst hc
        subst hok
        refine ⟨fun hff => by simp at hff, fun _ => ⟨hnone, h, rfl, rfl, ?_, ?_⟩⟩
        · exact lookup_append_self hnone
        · exact fun u hu => lookup_append_other hu
    · rw [if_pos (by rw [Bool.not_eq_true] at h2; rw [h2]; decide)] at hrun
      injection hrun with hc hrest
      injection hrest with hok hmsg
      subst hc
      subst hok
      exact ⟨fun _ => rfl, fun h => by simp at h⟩

/-- Witness for C10: a successful run adding `newuser` to the default
configuration. -/
theorem add_user_atomic_witness :
    default_config.usernames.lookup "newuser" = none ∧
    ∃ h, (Except.ok "hashed-pw" : Except String String) = .ok h ∧
      (add_user default_config "newuser" "new@example.com" "New" "User"
        (.ok "hashed-pw") "free" "2024-01-01").1.usernames =
        default_config.usernames ++
          [("newuser", newUserRec "new@example.com" "New" "User" h "free" "2024-01-01")] ∧
      (add_user default_config "newuser" "new@example.com" "New" "User"
        (.ok "hashed-pw") "free" "2024-01-01").1.usernames.lookup "newuser"
        = some (newUserRec "new@example.com" "New" "User" h "free" "2024-01-01") ∧
      ∀ u : String, u ≠ "newuser" →
        (add_user default_config "newuser" "new@example.com" "New" "User"
          (.ok "hashed-pw") "free" "2024-01-01").1.usernames.lookup u
          = default_config.usernames.lookup u :=
  (add_user_atomic default_config "newuser" "new@example.com" "New" "User"
    (.ok "hashed-pw") "free" "2024-01-01" _ _ _ rfl).2 rfl
